import Mathlib

/-!
Verification development for the aqua-verifier-go API client (`src/api/api.go`).

The Go source is embedded shallowly:
* byte strings (`[]byte`, Go `string` payloads fed to JSON/timestamp code) are
  `List Nat` of byte values;
* fallible Go functions returning `(T, error)` become `Option`/`Except` values;
* the standard-library collaborators (`net/url.Parse`, `net/http` transport,
  `encoding/json` decoding of the struct-shaped bodies) are passed as explicit
  parameters to the client operations, mirroring the way the code delegates to
  them; concrete models of the relevant parts of those libraries
  (`goURLParse`, `goTimeParse14`, `jsonDecodeStringArray`) are defined below
  and documented at their definitions;
* Go `panic` is modelled by the `GoOutcome.aborts` constructor.
-/

/-! ## Timestamp parsing (`Timestamp.UnmarshalJSON`, api.go lines 85-102)

`UnmarshalJSON` removes every `"` byte from the raw JSON token
(`strings.ReplaceAll(string(bytes), quote, "")`) and feeds the result to Go's
`time.Parse` with the fixed layout `"20060102150405"` (YYYYMMDDHHMMSS). -/

/-- A byte is an ASCII digit (`'0'` = 48 .. `'9'` = 57). -/
def isDigitByte (b : Nat) : Bool := decide (48 ≤ b ∧ b ≤ 57)

/-- Numeric value of two ASCII digit bytes. -/
def num2 (a b : Nat) : Nat := 10 * (a - 48) + (b - 48)

/-- Numeric value of four ASCII digit bytes. -/
def num4 (a b c d : Nat) : Nat :=
  1000 * (a - 48) + 100 * (b - 48) + 10 * (c - 48) + (d - 48)

/-- Models the `stdLongYear` step of Go `time.Parse`: four leading bytes,
all of which must be ASCII digits (`atoi` on the 4-byte slice). -/
def getnum4 : List Nat → Option (Nat × List Nat)
  | a :: b :: c :: d :: rest =>
    if isDigitByte a && isDigitByte b && isDigitByte c && isDigitByte d then
      some (num4 a b c d, rest)
    else none
  | _ => none

/-- Models Go `time.Parse`'s `getnum(value, true)` (fixed two-digit field). -/
def getnum2 : List Nat → Option (Nat × List Nat)
  | a :: b :: rest =>
    if isDigitByte a && isDigitByte b then some (num2 a b, rest) else none
  | _ => none

/-- Models Go `time.Parse`'s `getnum(value, false)` as used for the hour field
`"15"`: one digit, extended to two if the next byte is also a digit. -/
def getnum1or2 : List Nat → Option (Nat × List Nat)
  | a :: b :: rest =>
    if isDigitByte a then
      if isDigitByte b then some (num2 a b, rest) else some (a - 48, b :: rest)
    else none
  | [a] => if isDigitByte a then some (a - 48, []) else none
  | [] => none

/-- Location attached to a parsed time. Go `time.Parse` with a layout that
carries no zone information interprets the value in UTC. -/
inductive TZ
  | utc
deriving DecidableEq, Repr

/-- The fields of the `time.Time` produced by parsing the fixed
`YYYYMMDDHHMMSS` layout (the parts `time.Parse` fills in for this layout). -/
structure GoTime where
  year : Nat
  month : Nat
  day : Nat
  hour : Nat
  minute : Nat
  second : Nat
  loc : TZ
deriving DecidableEq, Repr

/-- Go `isLeap` (time/time.go). -/
def isLeap (y : Nat) : Bool := y % 4 == 0 && (y % 100 != 0 || y % 400 == 0)

/-- Go `daysIn` (time/format.go): days in a month of a year. -/
def daysIn (m y : Nat) : Nat :=
  if m == 2 then (if isLeap y then 29 else 28)
  else if m == 4 || m == 6 || m == 9 || m == 11 then 30
  else 31

/-- Models Go `time.Parse(layout, value)` for the fixed layout
`"20060102150405"`: year from four digit bytes, fixed two-digit month
(range-checked to 1..12), fixed two-digit day, one-or-two-digit hour
(range-checked below 24), fixed two-digit minute and second (range-checked
below 60), no bytes left over, and the day checked against `daysIn`.
Every error path of the Go parser (bad digit, range error, extra text,
day out of range) is `none`; on success Go yields the time in UTC. -/
def goTimeParse14 (l : List Nat) : Option GoTime :=
  match getnum4 l with
  | none => none
  | some (year, r1) =>
    match getnum2 r1 with
    | none => none
    | some (month, r2) =>
      if month < 1 ∨ 12 < month then none else
      match getnum2 r2 with
      | none => none
      | some (day, r3) =>
        match getnum1or2 r3 with
        | none => none
        | some (hour, r4) =>
          if 24 ≤ hour then none else
          match getnum2 r4 with
          | none => none
          | some (minute, r5) =>
            if 60 ≤ minute then none else
            match getnum2 r5 with
            | none => none
            | some (second, r6) =>
              if 60 ≤ second then none else
              if r6 ≠ [] then none else
              if day < 1 ∨ daysIn month year < day then none else
              some ⟨year, month, day, hour, minute, second, TZ.utc⟩

/-- Two ASCII digit bytes of `n` (zero padded), as produced by Go's
`appendInt(b, n, 2)` for the field values `0 ≤ n < 100` that a `time.Time`
carries for month/day/hour/minute/second. -/
def pad2 (n : Nat) : List Nat := [48 + n / 10 % 10, 48 + n % 10]

/-- Four ASCII digit bytes of `n` (zero padded), as produced by Go's
`appendInt(b, n, 4)` for years `0 ≤ n ≤ 9999`. -/
def pad4 (n : Nat) : List Nat :=
  [48 + n / 1000 % 10, 48 + n / 100 % 10, 48 + n / 10 % 10, 48 + n % 10]

/-- Models `time.Time.Format("20060102150405")` on the parsed fields:
re-serialization into the fixed-width `YYYYMMDDHHMMSS` byte string. -/
def formatTs (t : GoTime) : List Nat :=
  pad4 t.year ++ pad2 t.month ++ pad2 t.day ++ pad2 t.hour ++
    pad2 t.minute ++ pad2 t.second

/-- Source `strings.ReplaceAll(string(bytes), quote, "")` from
`Timestamp.UnmarshalJSON`: removing every occurrence of the one-byte
substring `"` (byte 34) is removing every `"` byte. -/
def removeQuotes (l : List Nat) : List Nat := l.filter (fun b => b ≠ 34)

/-- Source `Timestamp.UnmarshalJSON` (api.go lines 91-102): strip all double-quote
bytes, then `time.Parse` with layout `"20060102150405"`; a parse error is
returned (no decoded value), otherwise the parsed time is stored. -/
def unmarshalTimestamp (bytes : List Nat) : Option GoTime :=
  goTimeParse14 (removeQuotes bytes)

/-- Defined from the spec's words, for comparison with the code: a byte
string matches the fixed 14-character `YYYYMMDDHHMMSS` layout when it has
exactly 14 bytes, all ASCII digits, naming a valid calendar date
(month 1..12, day within the month) and time of day
(hour ≤ 23, minute ≤ 59, second ≤ 59). -/
def validTimestamp14 (l : List Nat) : Bool :=
  match l with
  | [a, b, c, d, e, f, g, h, i, j, k, m, n, o] =>
    isDigitByte a && isDigitByte b && isDigitByte c && isDigitByte d &&
    isDigitByte e && isDigitByte f && isDigitByte g && isDigitByte h &&
    isDigitByte i && isDigitByte j && isDigitByte k && isDigitByte m &&
    isDigitByte n && isDigitByte o &&
    decide (1 ≤ num2 e f) && decide (num2 e f ≤ 12) &&
    decide (1 ≤ num2 g h) &&
    decide (num2 g h ≤ daysIn (num2 e f) (num4 a b c d)) &&
    decide (num2 i j ≤ 23) && decide (num2 k m ≤ 59) && decide (num2 n o ≤ 59)
  | _ => false

/-- Byte values of a (pure-ASCII) string literal, for concrete inputs. -/
def strBytes (s : String) : List Nat := s.data.map Char.toNat

/-! ## URL composition (`net/url` collaborator, `GetApiURL`, `NewAPI`) -/

/-- A parsed URL. The client only ever turns the parsed value back into a
string with `u.String()` when issuing the request, so the model records the
(round-tripped) URL string. -/
structure URLModel where
  raw : String
deriving DecidableEq, Repr

/-- Go `strings.ContainsCtlByte` as used by `net/url.Parse`: an ASCII control
byte (below space, or DEL). -/
def containsCtlByte (s : String) : Bool :=
  s.data.any (fun c => decide (c.toNat < 32) || decide (c.toNat == 127))

/-- The first byte of the string is `':'` (Go `net/url`'s `getScheme` fails
with "missing protocol scheme" exactly when the colon is at index 0). -/
def startsWithColon (s : String) : Bool :=
  match s.data with
  | c :: _ => c == ':'
  | [] => false

/-- Models `net/url.Parse`: fails on a URL containing an ASCII control byte or
starting with `':'`; otherwise succeeds with the parsed URL (whose `String()`
round-trips to the input for the URLs exercised here). Rarer failure modes of
`net/url.Parse` (malformed bracketed IPv6 host, non-numeric port, bad
percent-encoding in the host) are not modelled; the universal theorems below
take the parse function as a parameter, so they do not depend on this model,
which is used only to instantiate concrete witnesses on benign strings. -/
def goURLParse (s : String) : Option URLModel :=
  if containsCtlByte s || startsWithColon s then none else some ⟨s⟩

/-! ## The client and its transport (api.go lines 16-30, 197-215, 238-244,
270-278) -/

/-- API endpoint definitions (api.go lines 16-22). -/
def endpoint_get_hash_chain_info : String := "/data_accounting/get_hash_chain_info/"

/-- See `endpoint_get_hash_chain_info`. -/
def endpoint_get_revision_hashes : String := "/data_accounting/get_revision_hashes/"

/-- See `endpoint_get_hash_chain_info`. -/
def endpoint_get_revision : String := "/data_accounting/get_revision/"

/-- See `endpoint_get_hash_chain_info`. -/
def endpoint_get_server_info : String := "/data_accounting/get_server_info"

/-- Source `AquaProtocol` (api.go lines 24-30) holds the endpoint parameters and the
authentication token of an API session. The `apiClient http.Client` field (a
handle to the standard-library transport, zero-valued at construction) is
represented by the explicit `transport` parameter of the operations. -/
structure AquaProtocol where
  apiEndpoint : String
  authToken : String
  server : String
deriving DecidableEq, Repr

/-- An outbound HTTP request as assembled by `fetch`. -/
structure HTTPRequest where
  method : String
  url : String
  headers : List (String × String)
deriving DecidableEq, Repr

/-- An HTTP response: status code and raw body bytes. -/
structure HTTPResponse where
  status : Nat
  body : List Nat
deriving DecidableEq, Repr

/-- The request `fetch` builds (api.go lines 200-206): a GET for the URL's
string form, with the two headers added in source order; the Authorization
value is the literal concatenation `"Bearer" + a.authToken`. -/
def buildRequest (a : AquaProtocol) (u : URLModel) : HTTPRequest :=
  { method := "GET"
    url := u.raw
    headers := [("Content-Type", "application/json"),
                ("Authorization", "Bearer" ++ a.authToken)] }

/-- Outcome of `fetch` (api.go lines 197-215), preserving the Go shape of its
`(*http.Response, error)` return: a transport failure returns `(nil, err)`, a
non-200 status returns the response *together with* an error, and a 200
response is returned with no error. -/
inductive FetchResult
  | transportFail
  | non200 (resp : HTTPResponse)
  | ok (resp : HTTPResponse)
deriving DecidableEq, Repr

/-- Source `fetch` (api.go lines 199-215): build the authenticated request, run it
through the transport (`a.apiClient.Do`), and enforce the 200-OK contract.
(`http.NewRequest` re-parses the already-parsed URL string; its error path is
unreachable for URLs that `url.Parse` accepted and is not modelled.) -/
def fetch (transport : HTTPRequest → Option HTTPResponse)
    (a : AquaProtocol) (u : URLModel) : FetchResult :=
  match transport (buildRequest a u) with
  | none => FetchResult.transportFail
  | some resp =>
    if resp.status ≠ 200 then FetchResult.non200 resp else FetchResult.ok resp

/-- The distinct error sources of the client operations: URL composition
failure (ConfigError), transport failure (TransportError), the
"Request Not 200 OK" error (ProtocolError), and a JSON decode failure
(DecodeError). -/
inductive ApiError
  | invalidURL
  | transportFailed
  | not200
  | decodeFailed
deriving DecidableEq, Repr

/-- Source `GetApiURL` (api.go lines 238-244): parse the concatenation of the
configured endpoint and the path. -/
def getApiURL (urlParse : String → Option URLModel)
    (a : AquaProtocol) (path : String) : Option URLModel :=
  urlParse (a.apiEndpoint ++ path)

/-- Source `NewAPI` (api.go lines 271-278): `url.Parse` the endpoint, fail with its
error if it cannot be parsed, otherwise return the session value carrying the
endpoint and token (remaining fields zero-valued). -/
def newAPI (urlParse : String → Option URLModel)
    (endpoint token : String) : Option AquaProtocol :=
  match urlParse endpoint with
  | none => none
  | some _ => some ⟨endpoint, token, ""⟩

/-! ## Data model (api.go lines 32-146) -/

/-- Source `ServerInfo` (api.go lines 33-35). -/
structure ServerInfo where
  ApiVersion : String
deriving DecidableEq, Repr

/-- Source `Namespace` (api.go lines 38-41). -/
structure Namespace where
  Case : Bool
  Title : String
deriving DecidableEq, Repr

/-- Source `SiteInfo` (api.go lines 44-51); `map[int]*Namespace` is modelled as an
association list from integers to possibly-nil `Namespace` pointers. -/
structure SiteInfo where
  SiteName : String
  DbName : String
  Base : String
  Generator : String
  Case : String
  Namespaces : List (Int × Option Namespace)
deriving DecidableEq, Repr

/-- Source `RevisionInfo` (api.go lines 54-64). -/
structure RevisionInfo where
  GenesisHash : String
  CurrentRevision : String
  DomainId : String
  Content : String
  LatestVerificationHash : String
  SiteInfo : Option SiteInfo
  Title : String
  Namespace : Int
  ChainHeight : Int
deriving DecidableEq, Repr

/-- Source `VerificationContext` (api.go lines 67-70). -/
structure VerificationContext where
  HasPreviousSignature : Bool
  HasPreviousWitness : Bool
deriving DecidableEq, Repr

/-- Source `ContentData` (api.go lines 73-76). -/
structure ContentData where
  Main : String
  TransclusionHashes : String
deriving DecidableEq, Repr

/-- Source `RevisionContent` (api.go lines 79-83). -/
structure RevisionContent where
  RevId : Int
  Content : Option ContentData
  ContentHash : String
deriving DecidableEq, Repr

/-- Source `RevisionMetadata` (api.go lines 105-111); the embedded
`Timestamp`/`time.Time` is the parsed `GoTime`. -/
structure RevisionMetadata where
  DomainId : String
  Timestamp : GoTime
  PreviousVerificationHash : String
  MetadataHash : String
  VerificationHash : String
deriving DecidableEq, Repr

/-- Source `RevisionHash` (api.go line 114): a string of bytes. -/
abbrev RevisionHash := List Nat

/-- Source `RevisionSignature` (api.go lines 119-123). -/
structure RevisionSignature where
  Signature : String
  WalletAddress : String
  SignatureHash : String
deriving DecidableEq, Repr

/-- Source `RevisionWitness` (api.go lines 126-132). -/
structure RevisionWitness where
  DomainManifestGenesisHash : String
  MerkleRoot : String
  WitnessNetwork : String
  Transaction : String
  WitnessHash : String
deriving DecidableEq, Repr

/-- Source `RevisionMerkleTreeProof` (api.go lines 135-136): no fields. -/
structure RevisionMerkleTreeProof
deriving DecidableEq, Repr

/-- Source `Revision` (api.go lines 139-146); the `*T` fields are optional. -/
structure Revision where
  Context : Option VerificationContext
  Content : Option RevisionContent
  Metadata : Option RevisionMetadata
  Signature : Option RevisionSignature
  Witness : Option RevisionWitness
  MerkleTreeProof : Option RevisionMerkleTreeProof
deriving DecidableEq, Repr

/-! ## JSON decoding of `[]*RevisionHash` (`GetRevisionHashes`, api.go
lines 187-189) -/

/-- JSON whitespace bytes (space, tab, newline, carriage return). -/
def jsonWs (b : Nat) : Bool := b == 32 || b == 9 || b == 10 || b == 13

/-- Drop leading JSON whitespace. -/
def skipWs : List Nat → List Nat
  | b :: r => if jsonWs b then skipWs r else b :: r
  | [] => []

/-- Body of a JSON string after its opening quote: the bytes up to the
closing quote (byte 34) and the remainder. Escape sequences (byte 92) are not
modelled; none appear in the bodies the theorems exercise. -/
def parseJString : List Nat → Option (List Nat × List Nat)
  | [] => none
  | b :: r =>
    if b == 34 then some ([], r)
    else if b == 92 then none
    else match parseJString r with
      | some (s, rest) => some (b :: s, rest)
      | none => none

/-- The elements of a non-empty JSON array of strings, starting after `[`
(fuelled by the input length; each step consumes at least one byte). -/
def parseElems : Nat → List Nat → Option (List (List Nat) × List Nat)
  | 0, _ => none
  | fuel + 1, l =>
    match skipWs l with
    | 34 :: r =>
      match parseJString r with
      | none => none
      | some (s, rest) =>
        match skipWs rest with
        | 44 :: r2 =>
          match parseElems fuel r2 with
          | some (xs, rem) => some (s :: xs, rem)
          | none => none
        | 93 :: r2 => some ([s], r2)
        | _ => none
    | _ => none

/-- Models `json.NewDecoder(resp.Body).Decode(&r)` for
`r []*RevisionHash`: one JSON array of strings read from the front of the
body (a stream decoder permits trailing bytes). Subset: `null` elements and
string escapes are not modelled; the theorems exercise the empty array and
plain string elements. -/
def jsonDecodeStringArray (body : List Nat) : Option (List RevisionHash) :=
  match skipWs body with
  | 91 :: r =>
    match skipWs r with
    | 93 :: _ => some []
    | r1 =>
      match parseElems (r1.length + 1) r1 with
      | some (xs, _) => some xs
      | none => none
  | _ => none

/-! ## Client operations (api.go lines 148-263) -/

/-- The outcome of calling a Go function that can panic: a normal return,
or an abort of the process via `panic(msg)`. -/
inductive GoOutcome (α : Type)
  | returns (val : α)
  | aborts (msg : String)
deriving DecidableEq, Repr

/-- Source `GetHashChainInfo` (api.go lines 149-172): for an `id_type` other than
`"genesis_hash"` or `"title"` the function calls `panic("wtf")` — the
`return nil, errors.New("id_type must be genesis_hash or title")` on the next
line is unreachable. Otherwise it composes
`endpoint_get_hash_chain_info + id_type + "/" + id`, fetches it, and decodes
the body into a `RevisionInfo` (the struct-directed `json` decoding is the
`decodeRevisionInfo` parameter). -/
def getHashChainInfo (urlParse : String → Option URLModel)
    (transport : HTTPRequest → Option HTTPResponse)
    (decodeRevisionInfo : List Nat → Option RevisionInfo)
    (a : AquaProtocol) (id_type id : String) :
    GoOutcome (Except ApiError RevisionInfo) :=
  if id_type ≠ "genesis_hash" ∧ id_type ≠ "title" then
    GoOutcome.aborts ("wtf")
  else
    GoOutcome.returns (
      match getApiURL urlParse a (endpoint_get_hash_chain_info ++ id_type ++ "/" ++ id) with
      | none => Except.error ApiError.invalidURL
      | some u =>
        match fetch transport a u with
        | FetchResult.transportFail => Except.error ApiError.transportFailed
        | FetchResult.non200 _ => Except.error ApiError.not200
        | FetchResult.ok resp =>
          match decodeRevisionInfo resp.body with
          | none => Except.error ApiError.decodeFailed
          | some r => Except.ok r)

/-- Source `GetRevisionHashes` (api.go lines 176-195): compose
`endpoint_get_revision_hashes + verification_hash`, fetch, decode the body
into `[]*RevisionHash` (initialised to the empty slice). -/
def getRevisionHashes (urlParse : String → Option URLModel)
    (transport : HTTPRequest → Option HTTPResponse)
    (a : AquaProtocol) (verification_hash : String) :
    Except ApiError (List RevisionHash) :=
  match getApiURL urlParse a (endpoint_get_revision_hashes ++ verification_hash) with
  | none => Except.error ApiError.invalidURL
  | some u =>
    match fetch transport a u with
    | FetchResult.transportFail => Except.error ApiError.transportFailed
    | FetchResult.non200 _ => Except.error ApiError.not200
    | FetchResult.ok resp =>
      match jsonDecodeStringArray resp.body with
      | none => Except.error ApiError.decodeFailed
      | some r => Except.ok r

/-- Source `GetRevision` (api.go lines 218-235). -/
def getRevision (urlParse : String → Option URLModel)
    (transport : HTTPRequest → Option HTTPResponse)
    (decodeRevision : List Nat → Option Revision)
    (a : AquaProtocol) (verification_hash : String) :
    Except ApiError Revision :=
  match getApiURL urlParse a (endpoint_get_revision ++ verification_hash) with
  | none => Except.error ApiError.invalidURL
  | some u =>
    match fetch transport a u with
    | FetchResult.transportFail => Except.error ApiError.transportFailed
    | FetchResult.non200 _ => Except.error ApiError.not200
    | FetchResult.ok resp =>
      match decodeRevision resp.body with
      | none => Except.error ApiError.decodeFailed
      | some r => Except.ok r

/-- Source `GetServerInfo` (api.go lines 247-263). -/
def getServerInfo (urlParse : String → Option URLModel)
    (transport : HTTPRequest → Option HTTPResponse)
    (decodeServerInfo : List Nat → Option ServerInfo)
    (a : AquaProtocol) : Except ApiError ServerInfo :=
  match getApiURL urlParse a endpoint_get_server_info with
  | none => Except.error ApiError.invalidURL
  | some u =>
    match fetch transport a u with
    | FetchResult.transportFail => Except.error ApiError.transportFailed
    | FetchResult.non200 _ => Except.error ApiError.not200
    | FetchResult.ok resp =>
      match decodeServerInfo resp.body with
      | none => Except.error ApiError.decodeFailed
      | some s => Except.ok s

/-! ## Helper lemmas about the timestamp parser -/

theorem getnum4_eq (l r : List Nat) (n : Nat) (h : getnum4 l = some (n, r)) :
    n ≤ 9999 ∧ l = pad4 n ++ r := by
  rcases l with _ | ⟨a, _ | ⟨b, _ | ⟨c, _ | ⟨d, rest⟩⟩⟩⟩
  · exact absurd h (by simp [getnum4])
  · exact absurd h (by simp [getnum4])
  · exact absurd h (by simp [getnum4])
  · exact absurd h (by simp [getnum4])
  · simp only [getnum4] at h
    split at h
    · rename_i hcond
      simp only [Bool.and_eq_true, isDigitByte, decide_eq_true_eq] at hcond
      obtain ⟨⟨⟨⟨ha1, ha2⟩, hb1, hb2⟩, hc1, hc2⟩, hd1, hd2⟩ := hcond
      simp only [Option.some.injEq, Prod.mk.injEq] at h
      obtain ⟨hn, hr⟩ := h
      subst hn
      subst hr
      refine ⟨by simp only [num4]; omega, ?_⟩
      simp only [pad4, num4, List.cons_append, List.nil_append, List.cons.injEq]
      refine ⟨by omega, by omega, by omega, by omega, trivial⟩
    · exact absurd h (by simp)

theorem getnum2_eq (l r : List Nat) (n : Nat) (h : getnum2 l = some (n, r)) :
    n ≤ 99 ∧ l = pad2 n ++ r := by
  rcases l with _ | ⟨a, _ | ⟨b, rest⟩⟩
  · exact absurd h (by simp [getnum2])
  · exact absurd h (by simp [getnum2])
  · simp only [getnum2] at h
    split at h
    · rename_i hcond
      simp only [Bool.and_eq_true, isDigitByte, decide_eq_true_eq] at hcond
      obtain ⟨⟨ha1, ha2⟩, hb1, hb2⟩ := hcond
      simp only [Option.some.injEq, Prod.mk.injEq] at h
      obtain ⟨hn, hr⟩ := h
      subst hn
      subst hr
      refine ⟨by simp only [num2]; omega, ?_⟩
      simp only [pad2, num2, List.cons_append, List.nil_append, List.cons.injEq]
      refine ⟨by omega, by omega, trivial⟩
    · exact absurd h (by simp)

theorem getnum1or2_eq (l r : List Nat) (n : Nat)
    (h : getnum1or2 l = some (n, r)) :
    (n ≤ 99 ∧ l = pad2 n ++ r) ∨ (n ≤ 9 ∧ getnum2 r = none) := by
  rcases l with _ | ⟨a, _ | ⟨b, rest⟩⟩
  · exact absurd h (by simp [getnum1or2])
  · simp only [getnum1or2] at h
    split at h
    · rename_i ha
      simp only [isDigitByte, decide_eq_true_eq] at ha
      simp only [Option.some.injEq, Prod.mk.injEq] at h
      obtain ⟨hn, hr⟩ := h
      subst hn
      subst hr
      exact Or.inr ⟨by omega, by simp [getnum2]⟩
    · exact absurd h (by simp)
  · simp only [getnum1or2] at h
    split at h
    · rename_i ha
      simp only [isDigitByte, decide_eq_true_eq] at ha
      split at h
      · rename_i hb
        simp only [isDigitByte, decide_eq_true_eq] at hb
        simp only [Option.some.injEq, Prod.mk.injEq] at h
        obtain ⟨hn, hr⟩ := h
        subst hn
        subst hr
        refine Or.inl ⟨by simp only [num2]; omega, ?_⟩
        simp only [pad2, num2, List.cons_append, List.nil_append, List.cons.injEq]
        refine ⟨by omega, by omega, trivial⟩
      · rename_i hb
        simp only [Option.some.injEq, Prod.mk.injEq] at h
        obtain ⟨hn, hr⟩ := h
        subst hn
        subst hr
        refine Or.inr ⟨by omega, ?_⟩
        cases rest with
        | nil => simp [getnum2]
        | cons c rest' => simp [getnum2, hb]
    · exact absurd h (by simp)

theorem valid_of_parts (y m d h mi s : Nat) (hy : y ≤ 9999) (hm1 : 1 ≤ m)
    (hm2 : m ≤ 12) (hd1 : 1 ≤ d) (hd99 : d ≤ 99) (hd2 : d ≤ daysIn m y)
    (hh : h ≤ 23) (hmi : mi ≤ 59) (hs : s ≤ 59) :
    validTimestamp14
      (pad4 y ++ pad2 m ++ pad2 d ++ pad2 h ++ pad2 mi ++ pad2 s) = true := by
  have ey : num4 (48 + y / 1000 % 10) (48 + y / 100 % 10) (48 + y / 10 % 10)
      (48 + y % 10) = y := by
    simp only [num4]; omega
  have em : num2 (48 + m / 10 % 10) (48 + m % 10) = m := by
    simp only [num2]; omega
  have ed : num2 (48 + d / 10 % 10) (48 + d % 10) = d := by
    simp only [num2]; omega
  have eh : num2 (48 + h / 10 % 10) (48 + h % 10) = h := by
    simp only [num2]; omega
  have emi : num2 (48 + mi / 10 % 10) (48 + mi % 10) = mi := by
    simp only [num2]; omega
  have es : num2 (48 + s / 10 % 10) (48 + s % 10) = s := by
    simp only [num2]; omega
  simp only [pad4, pad2, List.cons_append, List.nil_append, validTimestamp14]
  rw [ey, em, ed, eh, emi, es]
  simp only [Bool.and_eq_true, decide_eq_true_eq, isDigitByte]
  repeat' apply And.intro
  all_goals first | assumption | omega

theorem parse_sound (l : List Nat) (t : GoTime)
    (h : goTimeParse14 l = some t) :
    formatTs t = l ∧ validTimestamp14 l = true ∧ t.loc = TZ.utc := by
  unfold goTimeParse14 at h
  cases h4 : getnum4 l with
  | none => rw [h4] at h; exact absurd h (by simp)
  | some p4 =>
  obtain ⟨year, r1⟩ := p4
  rw [h4] at h
  simp only [] at h
  cases h2m : getnum2 r1 with
  | none => rw [h2m] at h; exact absurd h (by simp)
  | some p2 =>
  obtain ⟨month, r2⟩ := p2
  rw [h2m] at h
  simp only [] at h
  by_cases hmr : month < 1 ∨ 12 < month
  · rw [if_pos hmr] at h; exact absurd h (by simp)
  rw [if_neg hmr] at h
  cases h2d : getnum2 r2 with
  | none => rw [h2d] at h; exact absurd h (by simp)
  | some pd =>
  obtain ⟨day, r3⟩ := pd
  rw [h2d] at h
  simp only [] at h
  cases hhp : getnum1or2 r3 with
  | none => rw [hhp] at h; exact absurd h (by simp)
  | some ph =>
  obtain ⟨hour, r4⟩ := ph
  rw [hhp] at h
  simp only [] at h
  by_cases hhr : 24 ≤ hour
  · rw [if_pos hhr] at h; exact absurd h (by simp)
  rw [if_neg hhr] at h
  cases h2mi : getnum2 r4 with
  | none => rw [h2mi] at h; exact absurd h (by simp)
  | some pmi =>
  obtain ⟨minute, r5⟩ := pmi
  rw [h2mi] at h
  simp only [] at h
  by_cases hmir : 60 ≤ minute
  · rw [if_pos hmir] at h; exact absurd h (by simp)
  rw [if_neg hmir] at h
  cases h2s : getnum2 r5 with
  | none => rw [h2s] at h; exact absurd h (by simp)
  | some ps =>
  obtain ⟨second, r6⟩ := ps
  rw [h2s] at h
  simp only [] at h
  by_cases hsr : 60 ≤ second
  · rw [if_pos hsr] at h; exact absurd h (by simp)
  rw [if_neg hsr] at h
  by_cases hr6 : r6 ≠ []
  · rw [if_pos hr6] at h; exact absurd h (by simp)
  rw [if_neg hr6] at h
  by_cases hday : day < 1 ∨ daysIn month year < day
  · rw [if_pos hday] at h; exact absurd h (by simp)
  rw [if_neg hday] at h
  simp only [ne_eq, not_not] at hr6
  obtain ⟨hy9, hl⟩ := getnum4_eq _ _ _ h4
  obtain ⟨hm9, hr1⟩ := getnum2_eq _ _ _ h2m
  obtain ⟨hd9, hr2⟩ := getnum2_eq _ _ _ h2d
  rcases getnum1or2_eq _ _ _ hhp with ⟨hh9, hr3⟩ | ⟨hh9, hnone⟩
  · obtain ⟨hmi9, hr4⟩ := getnum2_eq _ _ _ h2mi
    obtain ⟨hs9, hr5⟩ := getnum2_eq _ _ _ h2s
    injection h with h
    subst h
    subst hr6
    subst hr5
    subst hr4
    subst hr3
    subst hr2
    subst hr1
    subst hl
    refine ⟨?_, ?_, rfl⟩
    · simp [formatTs]
    · simp only [List.append_nil]
      exact valid_of_parts year month day hour minute second hy9 (by omega)
        (by omega) (by omega) (by omega) (by omega) (by omega) (by omega)
        (by omega)
  · rw [hnone] at h2mi
    exact absurd h2mi (by simp)

theorem parse_complete (l : List Nat) (h : validTimestamp14 l = true) :
    ∃ t, goTimeParse14 l = some t ∧ formatTs t = l := by
  rcases l with _ | ⟨b0, _ | ⟨b1, _ | ⟨b2, _ | ⟨b3, _ | ⟨b4, _ | ⟨b5, _ |
    ⟨b6, _ | ⟨b7, _ | ⟨b8, _ | ⟨b9, _ | ⟨b10, _ | ⟨b11, _ | ⟨b12, _ |
    ⟨b13, rest⟩⟩⟩⟩⟩⟩⟩⟩⟩⟩⟩⟩⟩⟩
  case nil => simp [validTimestamp14] at h
  case cons.nil => simp [validTimestamp14] at h
  case cons.cons.nil => simp [validTimestamp14] at h
  case cons.cons.cons.nil => simp [validTimestamp14] at h
  case cons.cons.cons.cons.nil => simp [validTimestamp14] at h
  case cons.cons.cons.cons.cons.nil => simp [validTimestamp14] at h
  case cons.cons.cons.cons.cons.cons.nil => simp [validTimestamp14] at h
  case cons.cons.cons.cons.cons.cons.cons.nil => simp [validTimestamp14] at h
  case cons.cons.cons.cons.cons.cons.cons.cons.nil =>
    simp [validTimestamp14] at h
  case cons.cons.cons.cons.cons.cons.cons.cons.cons.nil =>
    simp [validTimestamp14] at h
  case cons.cons.cons.cons.cons.cons.cons.cons.cons.cons.nil =>
    simp [validTimestamp14] at h
  case cons.cons.cons.cons.cons.cons.cons.cons.cons.cons.cons.nil =>
    simp [validTimestamp14] at h
  case cons.cons.cons.cons.cons.cons.cons.cons.cons.cons.cons.cons.nil =>
    simp [validTimestamp14] at h
  case cons.cons.cons.cons.cons.cons.cons.cons.cons.cons.cons.cons.cons.nil =>
    simp [validTimestamp14] at h
  case cons.cons.cons.cons.cons.cons.cons.cons.cons.cons.cons.cons.cons.cons =>
  cases rest with
  | cons c rest' => simp [validTimestamp14] at h
  | nil =>
  simp only [validTimestamp14, Bool.and_eq_true, decide_eq_true_eq,
    isDigitByte] at h
  obtain ⟨⟨⟨⟨⟨⟨⟨⟨⟨⟨⟨⟨⟨⟨⟨⟨⟨⟨⟨⟨h0, h1⟩, h2⟩, h3⟩, h4⟩, h5⟩, h6⟩, h7⟩, h8⟩,
    h9⟩, h10⟩, h11⟩, h12⟩, h13⟩, hm1⟩, hm2⟩, hd1⟩, hd2⟩, hh⟩, hmi⟩, hs⟩ := h
  have c0 : isDigitByte b0 = true := by simp [isDigitByte]; omega
  have c1 : isDigitByte b1 = true := by simp [isDigitByte]; omega
  have c2 : isDigitByte b2 = true := by simp [isDigitByte]; omega
  have c3 : isDigitByte b3 = true := by simp [isDigitByte]; omega
  have c4 : isDigitByte b4 = true := by simp [isDigitByte]; omega
  have c5 : isDigitByte b5 = true := by simp [isDigitByte]; omega
  have c6 : isDigitByte b6 = true := by simp [isDigitByte]; omega
  have c7 : isDigitByte b7 = true := by simp [isDigitByte]; omega
  have c8 : isDigitByte b8 = true := by simp [isDigitByte]; omega
  have c9 : isDigitByte b9 = true := by simp [isDigitByte]; omega
  have c10 : isDigitByte b10 = true := by simp [isDigitByte]; omega
  have c11 : isDigitByte b11 = true := by simp [isDigitByte]; omega
  have c12 : isDigitByte b12 = true := by simp [isDigitByte]; omega
  have c13 : isDigitByte b13 = true := by simp [isDigitByte]; omega
  have nm : ¬(num2 b4 b5 < 1 ∨ 12 < num2 b4 b5) := by omega
  have nh : ¬(24 ≤ num2 b8 b9) := by omega
  have nmi : ¬(60 ≤ num2 b10 b11) := by omega
  have ns : ¬(60 ≤ num2 b12 b13) := by omega
  have nd : ¬(num2 b6 b7 < 1 ∨ daysIn (num2 b4 b5) (num4 b0 b1 b2 b3)
      < num2 b6 b7) := by omega
  have hparse : goTimeParse14
      [b0, b1, b2, b3, b4, b5, b6, b7, b8, b9, b10, b11, b12, b13] =
      some ⟨num4 b0 b1 b2 b3, num2 b4 b5, num2 b6 b7, num2 b8 b9,
        num2 b10 b11, num2 b12 b13, TZ.utc⟩ := by
    simp [goTimeParse14, getnum4, getnum2, getnum1or2, c0, c1, c2, c3, c4,
      c5, c6, c7, c8, c9, c10, c11, c12, c13, nm, nh, nmi, ns, nd]
    omega
  exact ⟨_, hparse, (parse_sound _ _ hparse).1⟩

theorem fetch_eq_non200 (transport : HTTPRequest → Option HTTPResponse)
    (a : AquaProtocol) (u : URLModel) (r : HTTPResponse)
    (hr : transport (buildRequest a u) = some r) (h200 : r.status ≠ 200) :
    fetch transport a u = FetchResult.non200 r := by
  unfold fetch
  rw [hr]
  simp [h200]

/-! ## Claim theorems -/

/-- Claim C1 (code bug): for an `idType` other than `"genesis_hash"` and
`"title"` the code does not return an InvalidArgument error — it aborts the
process via `panic("wtf")` (api.go line 151) before the unreachable
`return nil, errors.New(...)` on line 152. No network access occurs (the
outcome is the same for every transport), but the process terminates instead
of an error reaching the caller. -/
theorem getHashChainInfo_invalid_idType_aborts
    (urlParse : String → Option URLModel)
    (transport : HTTPRequest → Option HTTPResponse)
    (decodeRevisionInfo : List Nat → Option RevisionInfo)
    (a : AquaProtocol) (id : String) :
    getHashChainInfo urlParse transport decodeRevisionInfo a ("category") id =
      GoOutcome.aborts ("wtf") := by
  unfold getHashChainInfo
  rw [if_pos (by decide)]

/-- Claim C2 (code bug): every request built by `fetch` carries an
`Authorization` header, but its value is the literal concatenation
`"Bearer" + token` (api.go line 206) with no separating space: for the token
`"secret"` the header value is `"Bearersecret"`, which differs from the
claimed `"Bearer"`, space, token. -/
theorem authorization_header_missing_space :
    (∀ (a : AquaProtocol) (u : URLModel),
      (buildRequest a u).headers =
        [("Content-Type", "application/json"),
         ("Authorization", "Bearer" ++ a.authToken)]) ∧
    (buildRequest ⟨"http://example.com", "secret", ""⟩
        ⟨"http://example.com/x"⟩).headers =
      [("Content-Type", "application/json"),
       ("Authorization", "Bearersecret")] ∧
    ("Bearersecret" : String) ≠ "Bearer" ++ " " ++ "secret" :=
  ⟨fun _ _ => rfl, by decide, by decide⟩

/-- Claim C3 (confirmed): whenever the transport produces a response whose
status is not 200 (whatever its body), each of the four client operations
returns the "Request Not 200 OK" error and no decoded value, while `fetch`
itself still returns the raw response alongside the error
(`FetchResult.non200` carries it, mirroring `return resp, errors.New(...)`
at api.go line 212). -/
theorem non200_yields_error_no_value
    (urlParse : String → Option URLModel)
    (transport : HTTPRequest → Option HTTPResponse)
    (decodeRevisionInfo : List Nat → Option RevisionInfo)
    (decodeRevision : List Nat → Option Revision)
    (decodeServerInfo : List Nat → Option ServerInfo)
    (a : AquaProtocol) (id vh : String)
    (hparse : ∀ s, (urlParse s).isSome = true)
    (hresp : ∀ req, ∃ r, transport req = some r ∧ r.status ≠ 200) :
    getHashChainInfo urlParse transport decodeRevisionInfo a ("title") id =
      GoOutcome.returns (Except.error ApiError.not200) ∧
    getRevisionHashes urlParse transport a vh =
      Except.error ApiError.not200 ∧
    getRevision urlParse transport decodeRevision a vh =
      Except.error ApiError.not200 ∧
    getServerInfo urlParse transport decodeServerInfo a =
      Except.error ApiError.not200 ∧
    (∀ u r, transport (buildRequest a u) = some r →
      fetch transport a u = FetchResult.non200 r) := by
  have hfetch : ∀ u : URLModel, fetch transport a u =
      FetchResult.non200 (Classical.choose (hresp (buildRequest a u))) := by
    intro u
    obtain ⟨hr, h200⟩ := Classical.choose_spec (hresp (buildRequest a u))
    exact fetch_eq_non200 transport a u _ hr h200
  have hsome : ∀ s : String, ∃ u, urlParse s = some u := by
    intro s
    cases hu : urlParse s with
    | none => have := hparse s; rw [hu] at this; exact absurd this (by simp)
    | some u => exact ⟨u, rfl⟩
  refine ⟨?_, ?_, ?_, ?_, ?_⟩
  · unfold getHashChainInfo
    rw [if_neg (by simp)]
    obtain ⟨u, hu⟩ := hsome (a.apiEndpoint ++
      (endpoint_get_hash_chain_info ++ ("title") ++ "/" ++ id))
    unfold getApiURL
    simp only [hu, hfetch]
  · unfold getRevisionHashes
    obtain ⟨u, hu⟩ := hsome (a.apiEndpoint ++
      (endpoint_get_revision_hashes ++ vh))
    unfold getApiURL
    simp only [hu, hfetch]
  · unfold getRevision
    obtain ⟨u, hu⟩ := hsome (a.apiEndpoint ++ (endpoint_get_revision ++ vh))
    unfold getApiURL
    simp only [hu, hfetch]
  · unfold getServerInfo
    obtain ⟨u, hu⟩ := hsome (a.apiEndpoint ++ endpoint_get_server_info)
    unfold getApiURL
    simp only [hu, hfetch]
  · intro u r hr
    obtain ⟨hr', h200'⟩ := Classical.choose_spec (hresp (buildRequest a u))
    have hrr : r = Classical.choose (hresp (buildRequest a u)) :=
      Option.some.inj (hr.symm.trans hr')
    exact fetch_eq_non200 transport a u r hr (by rw [hrr]; exact h200')

/-- Claim C3 witness: a transport answering status 500 to everything. -/
theorem non200_yields_error_no_value_witness :
    getRevisionHashes (fun s => some ⟨s⟩) (fun _ => some ⟨500, []⟩)
      ⟨"http://example.com", "tok", ""⟩ "h" = Except.error ApiError.not200 :=
  (non200_yields_error_no_value (fun s => some ⟨s⟩) (fun _ => some ⟨500, []⟩)
    (fun _ => none) (fun _ => none) (fun _ => none)
    ⟨"http://example.com", "tok", ""⟩ ("x") ("h")
    (fun _ => rfl) (fun _ => ⟨⟨500, []⟩, rfl, by decide⟩)).2.1

/-- Claim C5 (confirmed): for a valid `idType` the URL `GetHashChainInfo`
submits to `url.Parse` (via `GetApiURL`) is exactly
`{base}/data_accounting/get_hash_chain_info/{idType}/{id}`. -/
theorem hash_chain_info_url_exact
    (urlParse : String → Option URLModel) (a : AquaProtocol)
    (id_type id : String)
    (_hvalid : id_type = "genesis_hash" ∨ id_type = "title") :
    getApiURL urlParse a (endpoint_get_hash_chain_info ++ id_type ++ "/" ++ id)
      = urlParse (a.apiEndpoint ++ "/data_accounting/get_hash_chain_info/"
          ++ id_type ++ "/" ++ id) := by
  unfold getApiURL endpoint_get_hash_chain_info
  simp only [String.append_assoc]

/-- Claim C5 witness. -/
theorem hash_chain_info_url_exact_witness :
    getApiURL goURLParse ⟨"http://example.com", "tok", ""⟩
      (endpoint_get_hash_chain_info ++ "genesis_hash" ++ "/" ++ "abc")
      = goURLParse ("http://example.com" ++
          "/data_accounting/get_hash_chain_info/" ++ "genesis_hash" ++
          "/" ++ "abc") :=
  hash_chain_info_url_exact goURLParse ⟨"http://example.com", "tok", ""⟩
    ("genesis_hash") ("abc") (Or.inl rfl)

/-- Claim C6 counterexample: the argument `"a/b"` injects an extra path
segment, yet `GetRevisionHashes` does not fail with a ConfigError — the
composed deeper URL parses fine and the request is issued against it (here a
transport answering `200`/`[]` makes the call succeed). -/
theorem url_injection_not_rejected :
    getRevisionHashes goURLParse (fun _ => some ⟨200, strBytes ("[]")⟩)
      ⟨"http://example.com", "tok", ""⟩ "a/b" = Except.ok [] ∧
    getApiURL goURLParse ⟨"http://example.com", "tok", ""⟩
      (endpoint_get_revision_hashes ++ "a/b") =
      some ⟨"http://example.com/data_accounting/get_revision_hashes/a/b"⟩ :=
  ⟨rfl, rfl⟩

/-- Claim C6 (corrected): each of the four client operations fails with the
URL-composition (Config) error exactly when `url.Parse` rejects the
concatenated URL string (e.g. a malformed base containing control bytes) —
for `GetHashChainInfo` provided the `idType` is valid, since an invalid
`idType` panics before URL composition ever happens (claim C1); a
caller-supplied argument that merely injects `/`-separated path segments is
not rejected — the operation proceeds against the longer composed path. -/
theorem url_error_iff_parse_fails
    (urlParse : String → Option URLModel)
    (transport : HTTPRequest → Option HTTPResponse)
    (decodeRevisionInfo : List Nat → Option RevisionInfo)
    (decodeRevision : List Nat → Option Revision)
    (decodeServerInfo : List Nat → Option ServerInfo)
    (a : AquaProtocol) (id_type id vh : String)
    (hvalid : id_type = "genesis_hash" ∨ id_type = "title") :
    (getHashChainInfo urlParse transport decodeRevisionInfo a id_type id =
        GoOutcome.returns (Except.error ApiError.invalidURL) ↔
      urlParse (a.apiEndpoint ++ endpoint_get_hash_chain_info ++ id_type
        ++ "/" ++ id) = none) ∧
    (getRevisionHashes urlParse transport a vh =
        Except.error ApiError.invalidURL ↔
      urlParse (a.apiEndpoint ++ endpoint_get_revision_hashes ++ vh) = none) ∧
    (getRevision urlParse transport decodeRevision a vh =
        Except.error ApiError.invalidURL ↔
      urlParse (a.apiEndpoint ++ endpoint_get_revision ++ vh) = none) ∧
    (getServerInfo urlParse transport decodeServerInfo a =
        Except.error ApiError.invalidURL ↔
      urlParse (a.apiEndpoint ++ endpoint_get_server_info) = none) := by
  refine ⟨?_, ?_, ?_, ?_⟩
  · unfold getHashChainInfo getApiURL
    have hne : ¬(id_type ≠ "genesis_hash" ∧ id_type ≠ "title") := by
      rcases hvalid with h | h <;> simp [h]
    rw [if_neg hne]
    simp only [← String.append_assoc]
    cases hp : urlParse (a.apiEndpoint ++ endpoint_get_hash_chain_info
        ++ id_type ++ "/" ++ id) with
    | none => simp
    | some u =>
      simp only []
      cases fetch transport a u with
      | transportFail => simp
      | non200 r => simp
      | ok r =>
        cases hd : decodeRevisionInfo r.body with
        | none => simp [hd]
        | some xs => simp [hd]
  · unfold getRevisionHashes getApiURL
    rw [← String.append_assoc]
    cases hp : urlParse (a.apiEndpoint ++ endpoint_get_revision_hashes ++ vh) with
    | none => simp
    | some u =>
      simp only []
      cases fetch transport a u with
      | transportFail => simp
      | non200 r => simp
      | ok r =>
        cases hd : jsonDecodeStringArray r.body with
        | none => simp [hd]
        | some xs => simp [hd]
  · unfold getRevision getApiURL
    rw [← String.append_assoc]
    cases hp : urlParse (a.apiEndpoint ++ endpoint_get_revision ++ vh) with
    | none => simp
    | some u =>
      simp only []
      cases fetch transport a u with
      | transportFail => simp
      | non200 r => simp
      | ok r =>
        cases hd : decodeRevision r.body with
        | none => simp [hd]
        | some xs => simp [hd]
  · unfold getServerInfo getApiURL
    cases hp : urlParse (a.apiEndpoint ++ endpoint_get_server_info) with
    | none => simp
    | some u =>
      simp only []
      cases fetch transport a u with
      | transportFail => simp
      | non200 r => simp
      | ok r =>
        cases hd : decodeServerInfo r.body with
        | none => simp [hd]
        | some xs => simp [hd]

/-- Claim C6 witness: the four iffs at a concrete configuration (valid
`idType` `"title"`, a transport that always fails, decoders that always
fail). -/
theorem url_error_iff_parse_fails_witness :
    (getHashChainInfo goURLParse (fun _ => none) (fun _ => none)
        ⟨"http://example.com", "tok", ""⟩ "title" "Main" =
        GoOutcome.returns (Except.error ApiError.invalidURL) ↔
      goURLParse ("http://example.com" ++ endpoint_get_hash_chain_info
        ++ "title" ++ "/" ++ "Main") = none) ∧
    (getRevisionHashes goURLParse (fun _ => none)
        ⟨"http://example.com", "tok", ""⟩ "h" =
        Except.error ApiError.invalidURL ↔
      goURLParse ("http://example.com" ++ endpoint_get_revision_hashes
        ++ "h") = none) ∧
    (getRevision goURLParse (fun _ => none) (fun _ => none)
        ⟨"http://example.com", "tok", ""⟩ "h" =
        Except.error ApiError.invalidURL ↔
      goURLParse ("http://example.com" ++ endpoint_get_revision ++ "h")
        = none) ∧
    (getServerInfo goURLParse (fun _ => none) (fun _ => none)
        ⟨"http://example.com", "tok", ""⟩ =
        Except.error ApiError.invalidURL ↔
      goURLParse ("http://example.com" ++ endpoint_get_server_info)
        = none) :=
  url_error_iff_parse_fails goURLParse (fun _ => none) (fun _ => none)
    (fun _ => none) (fun _ => none) ⟨"http://example.com", "tok", ""⟩
    ("title") ("Main") ("h") (Or.inr rfl)

/-- Claim C8 (confirmed): `NewAPI` returns the `url.Parse` error and no
client when the endpoint does not parse; otherwise it returns a client whose
stored endpoint and token are exactly the arguments (remaining fields
zero-valued). -/
theorem newAPI_validates_endpoint
    (urlParse : String → Option URLModel) (endpoint token : String) :
    (urlParse endpoint = none →
      newAPI urlParse endpoint token = none) ∧
    (∀ u, urlParse endpoint = some u →
      newAPI urlParse endpoint token = some ⟨endpoint, token, ""⟩) := by
  constructor
  · intro h
    unfold newAPI
    rw [h]
  · intro u h
    unfold newAPI
    rw [h]

/-- Claim C8 witness: `":"` cannot be parsed as a URL (missing protocol
scheme), a plain http URL can. -/
theorem newAPI_validates_endpoint_witness :
    newAPI goURLParse (":") ("tok") = none ∧
    newAPI goURLParse ("http://example.com") ("tok") =
      some ⟨"http://example.com", "tok", ""⟩ :=
  ⟨(newAPI_validates_endpoint goURLParse (":") ("tok")).1 (by decide),
   (newAPI_validates_endpoint goURLParse ("http://example.com") ("tok")).2
     ⟨"http://example.com"⟩ (by decide)⟩

/-- Claim C9 (confirmed): a 200 response whose body is the empty JSON array
makes `GetRevisionHashes` return the empty list of revision hashes with no
error. -/
theorem empty_array_gives_empty_hashes
    (urlParse : String → Option URLModel)
    (transport : HTTPRequest → Option HTTPResponse)
    (a : AquaProtocol) (vh : String) (u : URLModel)
    (hu : getApiURL urlParse a (endpoint_get_revision_hashes ++ vh) = some u)
    (hresp : transport (buildRequest a u) = some ⟨200, strBytes ("[]")⟩) :
    getRevisionHashes urlParse transport a vh = Except.ok [] := by
  unfold getRevisionHashes
  rw [hu]
  have hf : fetch transport a u = FetchResult.ok ⟨200, strBytes ("[]")⟩ := by
    unfold fetch
    rw [hresp]
    simp
  simp only [hf]
  have hdec : jsonDecodeStringArray (strBytes ("[]")) = some [] := by decide
  simp only [hdec]

/-- Claim C9 witness. -/
theorem empty_array_gives_empty_hashes_witness :
    getRevisionHashes goURLParse (fun _ => some ⟨200, strBytes ("[]")⟩)
      ⟨"http://example.com", "tok", ""⟩ "abc" = Except.ok [] :=
  empty_array_gives_empty_hashes goURLParse
    (fun _ => some ⟨200, strBytes ("[]")⟩)
    ⟨"http://example.com", "tok", ""⟩ ("abc")
    ⟨"http://example.com/data_accounting/get_revision_hashes/abc"⟩ rfl rfl

/-- Claim C10 (confirmed): the decoder deletes every double-quote byte of the
raw token (interior ones included); whenever what remains is a valid
14-digit `YYYYMMDDHHMMSS` string, decoding succeeds, and with exactly the
date/time whose fixed-width rendering is that quote-stripped string. -/
theorem quote_stripping_decode (bytes : List Nat)
    (h : validTimestamp14 (removeQuotes bytes) = true) :
    ∃ t, unmarshalTimestamp bytes = some t ∧
      formatTs t = removeQuotes bytes := by
  unfold unmarshalTimestamp
  exact parse_complete _ h

/-- Claim C10 witness: an input with an interior double quote,
`20"240115093000`, still decodes (to 2024-01-15 09:30:00). -/
theorem quote_stripping_decode_witness :
    validTimestamp14 (removeQuotes (strBytes ("20\"240115093000"))) = true ∧
    ∃ t, unmarshalTimestamp (strBytes ("20\"240115093000")) = some t ∧
      formatTs t = removeQuotes (strBytes ("20\"240115093000")) :=
  ⟨by decide, quote_stripping_decode _ (by decide)⟩
